import Mathlib

/-!
Verification of the telegram2rss feed pipeline (src/rss8.cjs).

JavaScript strings are modelled as lists of characters (JStr); byte
buffers as lists of Nat (ByteBuf).  External collaborators (the network,
the JS Date parser, the xml2js parser and builder) are modelled as
oracle parameters; everything in src/rss8.cjs itself is translated
directly.
-/

namespace Rss8

/-- JavaScript strings, modelled as lists of characters. -/
abbrev JStr := List Char

/-- Byte buffers (Node Buffer), modelled as lists of byte values. -/
abbrev ByteBuf := List Nat

/-- Conversion from a Lean string literal to the JStr model. -/
def str (s : String) : JStr := s.toList

/-- The double-quote character (code 34). -/
def quoteChar : Char := Char.ofNat 34

/-- The apostrophe character (code 39). -/
def aposChar : Char := Char.ofNat 39

/-- JavaScript String.prototype.trim removes WhiteSpace and LineTerminator
code points; this predicate lists them. -/
def isJsWhitespace (c : Char) : Bool :=
  c.toNat == 0x09 || c.toNat == 0x0A || c.toNat == 0x0B || c.toNat == 0x0C ||
  c.toNat == 0x0D || c.toNat == 0x20 || c.toNat == 0xA0 || c.toNat == 0x1680 ||
  (0x2000 ≤ c.toNat && c.toNat ≤ 0x200A) || c.toNat == 0x2028 || c.toNat == 0x2029 ||
  c.toNat == 0x202F || c.toNat == 0x205F || c.toNat == 0x3000 || c.toNat == 0xFEFF

/-- Characters kept by the character-class filter in sanitizeXmlText
(src/rss8.cjs line 45): tab, newline, carriage return, and the ranges
0x20-0xD7FF and 0xE000-0xFFFD.  Surrogate code units cannot occur in the
Char model. -/
def isValidXmlChar (c : Char) : Bool :=
  c.toNat == 0x09 || c.toNat == 0x0A || c.toNat == 0x0D ||
  (0x20 ≤ c.toNat && c.toNat ≤ 0xD7FF) || (0xE000 ≤ c.toNat && c.toNat ≤ 0xFFFD)

/-- JavaScript trim: drop whitespace from the front, then from the back. -/
def jsTrim (s : JStr) : JStr :=
  (s.dropWhile isJsWhitespace).rdropWhile isJsWhitespace

/-- The negative lookahead of the ampersand regex in sanitizeXmlText
(src/rss8.cjs line 40): the text after an ampersand starts with one of
the recognized entity tails. -/
def isEntityTail (s : JStr) : Bool :=
  (str ("amp;")).isPrefixOf s || (str ("lt;")).isPrefixOf s ||
  (str ("gt;")).isPrefixOf s || (str ("quot;")).isPrefixOf s ||
  (str ("apos;")).isPrefixOf s

/-- The first replace of sanitizeXmlText: every ampersand not followed by a
recognized entity tail becomes the five characters of the amp entity. -/
def escapeAmp : JStr → JStr
  | [] => []
  | c :: rest =>
    if c = '&' then
      if isEntityTail rest then c :: escapeAmp rest
      else str ("&amp;") ++ escapeAmp rest
    else c :: escapeAmp rest

/-- A global single-character replace, as used for the four remaining
escape steps of sanitizeXmlText. -/
def replaceChar (c : Char) (r : JStr) : JStr → JStr
  | [] => []
  | x :: rest => (if x = c then r else [x]) ++ replaceChar c r rest

/-- The body of sanitizeXmlText on a truthy string: the five escaping
replaces in source order, then the invalid-character filter, then trim
(src/rss8.cjs lines 39-46). -/
def sanitizeCore (s : JStr) : JStr :=
  jsTrim ((replaceChar aposChar (str ("&apos;"))
    (replaceChar quoteChar (str ("&quot;"))
      (replaceChar '>' (str ("&gt;"))
        (replaceChar '<' (str ("&lt;"))
          (escapeAmp s))))).filter isValidXmlChar)

/-- sanitizeXmlText (src/rss8.cjs lines 37-47).  The argument is an
optional string: none models a null or undefined input, and the falsy
check at line 38 also sends the empty string to the empty string. -/
def sanitizeXmlText : Option JStr → JStr
  | none => []
  | some text => if text = [] then [] else sanitizeCore text

/-- Decimal digit test, matching the regex digit class. -/
def isDigitChar (c : Char) : Bool := 0x30 ≤ c.toNat && c.toNat ≤ 0x39

/-- Numeric value of one decimal digit character. -/
def digitVal (c : Char) : Nat := c.toNat - 0x30

/-- Numeric value of a string of decimal digits, as parseInt computes it
on an all-digit string.  IEEE rounding of values beyond 2 to the 53rd is
outside the scope of the model. -/
def digitsToNat (ds : JStr) : Nat := ds.foldl (fun acc c => 10 * acc + digitVal c) 0

/-- extractPostNumber (src/rss8.cjs lines 56-64): match a slash followed
by a nonempty digit run at the end of the link; on a match return the
parsed digits, otherwise 0.  The catch branch of the source can only
fire on a non-string argument, which the model excludes by typing. -/
def extractPostNumber (link : JStr) : Nat :=
  if (link.reverse.takeWhile isDigitChar).isEmpty then 0
  else
    match link.reverse.dropWhile isDigitChar with
    | c :: _ => if c = '/' then digitsToNat (link.reverse.takeWhile isDigitChar).reverse else 0
    | [] => 0

/-- Magic-number table of detectMimeType, in source insertion order. -/
def jpegSig : ByteBuf := [0xFF, 0xD8, 0xFF]

/-- PNG signature of detectMimeType. -/
def pngSig : ByteBuf := [0x89, 0x50, 0x4E, 0x47]

/-- GIF signature of detectMimeType. -/
def gifSig : ByteBuf := [0x47, 0x49, 0x46, 0x38]

/-- WEBP signature of detectMimeType (the RIFF container header). -/
def webpSig : ByteBuf := [0x52, 0x49, 0x46, 0x46]

/-- The signature.every check of detectMimeType (src/rss8.cjs line 76):
an out-of-range buffer read yields undefined, which never equals a
signature byte, so the check is a prefix test. -/
def sigMatches : ByteBuf → ByteBuf → Bool
  | _, [] => true
  | [], _ :: _ => false
  | b :: bs, s :: ss => b == s && sigMatches bs ss

/-- detectMimeType (src/rss8.cjs lines 67-81): first matching signature
wins, in the object insertion order jpeg, png, gif, webp; the default is
jpeg. -/
def detectMimeType (buffer : ByteBuf) : JStr :=
  if sigMatches buffer jpegSig then str ("image/jpeg")
  else if sigMatches buffer pngSig then str ("image/png")
  else if sigMatches buffer gifSig then str ("image/gif")
  else if sigMatches buffer webpSig then str ("image/webp")
  else str ("image/jpeg")

/-- getExtFromMime (src/rss8.cjs lines 84-92). -/
def getExtFromMime (mime : JStr) : JStr :=
  if mime = str ("image/jpeg") then str (".jpg")
  else if mime = str ("image/png") then str (".png")
  else if mime = str ("image/gif") then str (".gif")
  else if mime = str ("image/webp") then str (".webp")
  else str (".jpg")

/-- parseDate (src/rss8.cjs lines 50-53).  The JS Date constructor is an
external builtin, modelled by the oracle dparse returning the epoch
value of a parseable string and none otherwise; now is the current
clock value used by the fallback branch. -/
def parseDate (dparse : JStr → Option Int) (now : Int) (s : JStr) : Int :=
  match dparse s with
  | some t => t
  | none => now

/-- The composite new Date(s).toUTCString() as inlined at src/rss8.cjs
line 226: formatting a parseable date via the oracle fmtUTC, and the
literal string Invalid Date otherwise. -/
def newDateToUTCString (dparse : JStr → Option Int) (fmtUTC : Int → JStr) (s : JStr) : JStr :=
  match dparse s with
  | some t => fmtUTC t
  | none => str ("Invalid Date")

/-- Substring occurrence test used to state the double-escaping claims. -/
def containsSub : JStr → JStr → Bool
  | pat, [] => pat.isEmpty
  | pat, c :: rest => pat.isPrefixOf (c :: rest) || containsSub pat rest

/-- Prefix property used to state the signature claims. -/
def BeginsWith (sig : ByteBuf) (buffer : ByteBuf) : Prop := ∃ rest, buffer = sig ++ rest

/-- Result of one run of a retry loop.  The undef outcome models the
JavaScript loop falling through when the attempt budget is zero, in
which case the enclosing async function returns undefined. -/
inductive RetryOutcome (ε α : Type) where
  | ok : α → RetryOutcome ε α
  | err : ε → RetryOutcome ε α
  | undef : RetryOutcome ε α
deriving DecidableEq

/-- Observable trace of a retry loop: final outcome, number of times the
operation was invoked, and the backoff delays awaited, in order. -/
structure RetryRun (ε α : Type) where
  outcome : RetryOutcome ε α
  attempts : Nat
  waits : List Nat
deriving DecidableEq

/-- The retry loop shared (by textual duplication) between downloadImage
(src/rss8.cjs lines 128-183) and safeTelegramRss (lines 188-201): try
the operation; on failure rethrow if this was the last allowed attempt,
otherwise wait delay times 2 to the attempt index and try again.  The
operation is an oracle giving the outcome of each attempt. -/
def retryLoop (op : Nat → Except ε α) (retries delay : Nat) (attempt : Nat) : RetryRun ε α :=
  if _h : attempt < retries then
    match op attempt with
    | .ok a => ⟨.ok a, 1, []⟩
    | .error e =>
      if attempt = retries - 1 then ⟨.err e, 1, []⟩
      else
        let rest := retryLoop op retries delay (attempt + 1)
        ⟨rest.outcome, rest.attempts + 1, delay * 2 ^ attempt :: rest.waits⟩
  else ⟨.undef, 0, []⟩
termination_by retries - attempt
decreasing_by omega

/-- safeTelegramRss (src/rss8.cjs lines 187-202): the retry loop applied
to the upstream fetch, starting at attempt 0.  The source calls it with
the default budget of 3 attempts and 2000ms base delay. -/
def safeTelegramRss (fetchOp : Nat → Except ε α) (retries delay : Nat) : RetryRun ε α :=
  retryLoop fetchOp retries delay 0

/-- A post directory on disk is keyed by (channel, post number). -/
abbrev DirKey := JStr × Nat

/-- The on-disk media store: an association list from post directory to
its list of (filename, content) entries. -/
abbrev Disk := List (DirKey × List (JStr × ByteBuf))

/-- Contents of a post directory; a directory that was never written is
empty, matching ensureDirectoryExists followed by readdirSync. -/
def dirContents : Disk → DirKey → List (JStr × ByteBuf)
  | [], _ => []
  | e :: rest, k => if e.1 = k then e.2 else dirContents rest k

/-- Replace the contents of one directory. -/
def diskSet : Disk → DirKey → List (JStr × ByteBuf) → Disk
  | [], k, c => [(k, c)]
  | e :: rest, k, c => if e.1 = k then (k, c) :: rest else e :: diskSet rest k c

/-- writeFileSync into a post directory: a file of the same name is
overwritten, any other file is kept. -/
def diskWrite (disk : Disk) (k : DirKey) (fname : JStr) (bytes : ByteBuf) : Disk :=
  diskSet disk k ((dirContents disk k).filter (fun f => !(f.1 == fname)) ++ [(fname, bytes)])

/-- The metadata object returned by downloadImage. -/
structure ImageData where
  path : JStr
  filename : JStr
  size : Nat
  mimeType : JStr
  relativePath : JStr
deriving DecidableEq

/-- path.join on POSIX, for the path components used here. -/
def joinPath (parts : List JStr) : JStr := (parts.intersperse (str ("/"))).flatten

/-- Decimal rendering of a number, as toString produces for a Nat. -/
def natToJStr (n : Nat) : JStr := (Nat.repr n).toList

/-- The relativePath field built by downloadImage. -/
def relativePathOf (channel : JStr) (postNumber : Nat) (fname : JStr) : JStr :=
  joinPath [str ("images"), channel, natToJStr postNumber, fname]

/-- downloadImage (src/rss8.cjs lines 103-184).  The network is the
oracle net, mapping the requested url and the attempt index to the
fetched bytes or a failure; the file system is the explicit disk state,
assumed reliable (statSync reports the length of the stored bytes).
Returns the result, the disk after the call, and the number of network
fetches performed.  If a file already exists in the post directory, its
bytes are read back and the metadata is rebuilt from them with no
fetch; otherwise the retry loop (3 attempts, 2000ms base by default)
downloads the bytes, the content type is inferred from the first bytes,
and the file image.EXT is written. -/
def downloadImage (net : JStr → Nat → Except ε ByteBuf) (imageDir : JStr) (disk : Disk)
    (imageUrl : JStr) (channel : JStr) (postNumber : Nat) (retries delay : Nat) :
    RetryOutcome ε ImageData × Disk × Nat :=
  let key : DirKey := (channel, postNumber)
  match dirContents disk key with
  | f :: _ =>
    (.ok { path := joinPath [imageDir, channel, natToJStr postNumber, f.1],
           filename := f.1, size := f.2.length,
           mimeType := detectMimeType f.2,
           relativePath := relativePathOf channel postNumber f.1 }, disk, 0)
  | [] =>
    let run := retryLoop (net imageUrl) retries delay 0
    match run.outcome with
    | .ok buffer =>
      let mime := detectMimeType buffer
      let fname := str ("image") ++ getExtFromMime mime
      (.ok { path := joinPath [imageDir, channel, natToJStr postNumber, fname],
             filename := fname, size := buffer.length, mimeType := mime,
             relativePath := relativePathOf channel postNumber fname },
       diskWrite disk key fname buffer, run.attempts)
    | .err e => (.err e, disk, run.attempts)
    | .undef => (.undef, disk, run.attempts)

/-- One raw post entry as read off the parsed upstream document at
src/rss8.cjs lines 224-229: optional embedded image url, optional
publish date string, link, optional description, title. -/
structure RawItem where
  image : Option JStr
  pubDate : Option JStr
  link : JStr
  description : Option JStr
  title : JStr
deriving DecidableEq

/-- The enclosure attributes built at src/rss8.cjs lines 237-253; the
length attribute is a string in the source. -/
structure Enclosure where
  url : JStr
  type : JStr
  length : JStr
deriving DecidableEq

/-- A processed item before sorting, still carrying the temporary
postNumber field used as sort key (src/rss8.cjs line 264). -/
structure OutItemPre where
  title : JStr
  description : JStr
  pubDate : JStr
  link : JStr
  guid : JStr
  enclosure : Option Enclosure
  postNumber : Nat
deriving DecidableEq

/-- A canonical output entry, after the temporary sort key is deleted
(src/rss8.cjs line 272). -/
structure OutItem where
  title : JStr
  description : JStr
  pubDate : JStr
  link : JStr
  guid : JStr
  enclosure : Option Enclosure
deriving DecidableEq

/-- Deleting the temporary sort key from a processed item. -/
def stripPostNumber (it : OutItemPre) : OutItem :=
  { title := it.title, description := it.description, pubDate := it.pubDate,
    link := it.link, guid := it.guid, enclosure := it.enclosure }

/-- Ambient context of one normalization run: the media base url, the
build timestamp string latestPubDate (new Date().toUTCString() at
src/rss8.cjs line 218), the external Date parser and formatter, and the
per-item outcome of the awaited downloadImage call. -/
structure NormCtx where
  serverUrl : JStr
  latestPubDate : JStr
  dparse : JStr → Option Int
  fmtUTC : Int → JStr
  download : JStr → Nat → Except Unit ImageData

/-- The item mapping of processRssFeed (src/rss8.cjs lines 224-266).
Promise.all keeps the positional order of the mapped items. -/
def processItem (ctx : NormCtx) (item : RawItem) : OutItemPre :=
  let imageUrl := item.image.getD []
  let pubDate :=
    match item.pubDate with
    | some s => if s = [] then ctx.latestPubDate else newDateToUTCString ctx.dparse ctx.fmtUTC s
    | none => ctx.latestPubDate
  let postNumber := extractPostNumber item.link
  let descriptionText := sanitizeXmlText (some (item.description.getD item.title))
  let enclosure :=
    if imageUrl = [] then none
    else
      match ctx.download imageUrl postNumber with
      | .ok d => some { url := ctx.serverUrl ++ str ("/") ++ d.relativePath,
                        type := d.mimeType, length := natToJStr d.size }
      | .error _ => some { url := imageUrl, type := str ("image/jpeg"), length := str ("0") }
  { title := str ("[Photo]"), description := descriptionText, pubDate := pubDate,
    link := item.link, guid := item.link, enclosure := enclosure, postNumber := postNumber }

/-- The comparator at src/rss8.cjs line 269 sorts descending by the
temporary post number; the runtime sort is stable, so ties keep their
original relative order, which a stable merge sort under this total
relation reproduces exactly. -/
def itemLe (a b : OutItemPre) : Bool := decide (b.postNumber ≤ a.postNumber)

/-- Map, stable-sort descending, then delete the sort key
(src/rss8.cjs lines 224-275). -/
def processItems (ctx : NormCtx) (items : List RawItem) : List OutItem :=
  (((items.map (processItem ctx)).mergeSort itemLe).map stripPostNumber)

/-- The channel part of the parsed raw document that the pipeline reads:
its title and its item list. -/
structure RawChannel where
  title : JStr
  items : List RawItem
deriving DecidableEq

/-- The canonical output document assembled at src/rss8.cjs
lines 214-275. -/
structure OutDoc where
  title : JStr
  link : JStr
  description : JStr
  pubDate : JStr
  lastBuildDate : JStr
  items : List OutItem
deriving DecidableEq

/-- Channel-level normalization (src/rss8.cjs lines 214-220 and 275):
sanitized title with placeholder fallback, canonical link from the
channel id, empty description, build timestamp in both date fields, and
the processed items. -/
def normalizeChannel (ctx : NormCtx) (channel : JStr) (raw : RawChannel) : OutDoc :=
  let t := sanitizeXmlText (some raw.title)
  { title := if t = [] then str ("Telegram Channel") else t,
    link := str ("https://t.me/") ++ channel,
    description := [],
    pubDate := ctx.latestPubDate,
    lastBuildDate := ctx.latestPubDate,
    items := processItems ctx raw.items }

/-- The character class of the pre-parse ampersand fix at src/rss8.cjs
line 210: ASCII letters, digits, and the hash sign. -/
def isAlnumHash (c : Char) : Bool :=
  (0x30 ≤ c.toNat && c.toNat ≤ 0x39) || (0x41 ≤ c.toNat && c.toNat ≤ 0x5A) ||
  (0x61 ≤ c.toNat && c.toNat ≤ 0x7A) || c.toNat == 0x23

/-- The lookahead of the pre-parse regex: a nonempty run of entity
characters followed by a semicolon. -/
def entityLookahead (s : JStr) : Bool :=
  !(s.takeWhile isAlnumHash).isEmpty &&
    (match s.dropWhile isAlnumHash with
     | c :: _ => c == ';'
     | [] => false)

/-- The pre-parse replace at src/rss8.cjs line 210: escape every
ampersand that does not begin an entity-like sequence. -/
def presanitizeAmp : JStr → JStr
  | [] => []
  | c :: rest =>
    if c = '&' then
      if entityLookahead rest then c :: presanitizeAmp rest
      else str ("&amp;") ++ presanitizeAmp rest
    else c :: presanitizeAmp rest

/-- The freshness cache rssCache: channel id to (serialized document,
lastUpdate clock value). -/
abbrev Cache := List (JStr × (JStr × Int))

/-- Map.set: replace the entry for the key wholesale, or add it. -/
def cacheSet : Cache → JStr → JStr × Int → Cache
  | [], k, v => [(k, v)]
  | e :: rest, k, v => if e.1 = k then (k, v) :: rest else e :: cacheSet rest k v

/-- processRssFeed (src/rss8.cjs lines 205-296) at the level of its
effects on the freshness cache.  The upstream fetch (already wrapped in
its retry loop) and the xml2js parser are oracles that either produce a
value or fail; the xml2js builder is the oracle build.  The try block
rethrows any error after logging, and the cache is written exactly once,
at line 286, after the whole document has been built. -/
def processRssFeed (ctx : NormCtx) (build : OutDoc → JStr)
    (fetch : Except ε JStr) (parseXml : JStr → Except ε RawChannel)
    (channel : JStr) (now : Int) (cache : Cache) : Except ε JStr × Cache :=
  match fetch with
  | .error e => (.error e, cache)
  | .ok raw =>
    match parseXml (presanitizeAmp raw) with
    | .error e => (.error e, cache)
    | .ok doc =>
      let xml := build (normalizeChannel ctx channel doc)
      (.ok xml, cacheSet cache channel (xml, now))

/-- A string free of the five raw characters that sanitizeXmlText
escapes. -/
def noRawSpecials (s : JStr) : Prop :=
  ∀ c ∈ s, c ≠ '&' ∧ c ≠ '<' ∧ c ≠ '>' ∧ c ≠ quoteChar ∧ c ≠ aposChar

instance (s : JStr) : Decidable (noRawSpecials s) :=
  inferInstanceAs (Decidable (∀ c ∈ s, c ≠ '&' ∧ c ≠ '<' ∧ c ≠ '>' ∧ c ≠ quoteChar ∧ c ≠ aposChar))

/-- A Date oracle under which no string parses, standing for an input
whose publish date new Date cannot interpret. -/
def dparseNone : JStr → Option Int := fun _ => none

/-- A fixed formatter for valid dates. -/
def fmtUTCZero : Int → JStr := fun _ => str ("Thu, 01 Jan 1970 00:00:00 GMT")

/-- Concrete normalization context used to evaluate the pipeline on a
post whose date string does not parse. -/
def ctxBadDate : NormCtx :=
  { serverUrl := str ("http://serverIP"),
    latestPubDate := str ("Thu, 01 Jan 1970 00:00:00 GMT"),
    dparse := dparseNone, fmtUTC := fmtUTCZero,
    download := fun _ _ => .error () }

/-- A post entry whose publish date string no Date parser accepts. -/
def badDateItem : RawItem :=
  { image := none, pubDate := some (str ("not-a-date")),
    link := str ("https://t.me/chan/7"), description := none, title := str ("t") }

/-- A post entry carrying a media url, used with an always failing
download oracle. -/
def mediaItem : RawItem :=
  { image := some (str ("https://cdn.example/img")), pubDate := none,
    link := str ("https://t.me/chan/5"), description := none, title := str ("t") }

/-- A network oracle that always returns one fixed JPEG payload. -/
def netJpeg : JStr → Nat → Except Unit ByteBuf := fun _ _ => .ok [0xFF, 0xD8, 0xFF, 9]

/-- An operation that fails on the first two attempts and succeeds on
the third. -/
def opThird : Nat → Except Nat Nat := fun i => if i < 2 then .error i else .ok 42

/-- An operation that fails on every attempt, with the attempt index as
the error value. -/
def opFails : Nat → Except Nat Nat := fun i => .error i

instance {ε α : Type} [DecidableEq ε] [DecidableEq α] : DecidableEq (Except ε α) :=
  fun x y =>
    match x, y with
    | .ok a, .ok b =>
      if h : a = b then .isTrue (h ▸ rfl)
      else .isFalse (fun hc => h (by injection hc))
    | .error a, .error b =>
      if h : a = b then .isTrue (h ▸ rfl)
      else .isFalse (fun hc => h (by injection hc))
    | .ok _, .error _ => .isFalse (fun hc => Except.noConfusion hc)
    | .error _, .ok _ => .isFalse (fun hc => Except.noConfusion hc)

/-- C10: the sanitizer is total over absent input: null or undefined
(modelled as none) and the empty string are all sent to the empty
string by the falsy check, so a missing text field cannot abort
normalization at the sanitization step. -/
theorem sanitizeXmlText_total_on_falsy :
    sanitizeXmlText none = [] ∧ sanitizeXmlText (some []) = [] :=
  ⟨rfl, rfl⟩

/-- The every-with-index signature check is exactly a prefix test. -/
theorem sigMatches_iff (buffer sig : ByteBuf) :
    sigMatches buffer sig = true ↔ BeginsWith sig buffer := by
  induction sig generalizing buffer with
  | nil =>
    simp only [sigMatches, BeginsWith, List.nil_append]
    exact ⟨fun _ => ⟨buffer, rfl⟩, fun _ => trivial⟩
  | cons s ss ih =>
    cases buffer with
    | nil =>
      simp only [sigMatches, BeginsWith]
      constructor
      · intro h; cases h
      · rintro ⟨rest, h⟩; cases h
    | cons b bs =>
      simp only [sigMatches, Bool.and_eq_true, beq_iff_eq, BeginsWith, ih]
      constructor
      · rintro ⟨hb, rest, hr⟩
        exact ⟨rest, by rw [List.cons_append, hb, hr]⟩
      · rintro ⟨rest, hr⟩
        rw [List.cons_append] at hr
        injection hr with h1 h2
        exact ⟨h1, rest, h2⟩

/-- C8: content-type detection classifies a buffer beginning with the
JPEG, PNG, GIF or WEBP signature accordingly, and every buffer matching
none of the four signatures defaults to JPEG. -/
theorem detectMimeType_classification :
    (∀ buffer : ByteBuf, BeginsWith jpegSig buffer → detectMimeType buffer = str ("image/jpeg")) ∧
    (∀ buffer : ByteBuf, BeginsWith pngSig buffer → detectMimeType buffer = str ("image/png")) ∧
    (∀ buffer : ByteBuf, BeginsWith gifSig buffer → detectMimeType buffer = str ("image/gif")) ∧
    (∀ buffer : ByteBuf, BeginsWith webpSig buffer → detectMimeType buffer = str ("image/webp")) ∧
    (∀ buffer : ByteBuf, ¬ BeginsWith jpegSig buffer → ¬ BeginsWith pngSig buffer →
      ¬ BeginsWith gifSig buffer → ¬ BeginsWith webpSig buffer →
      detectMimeType buffer = str ("image/jpeg")) := by
  refine ⟨?_, ?_, ?_, ?_, ?_⟩
  · rintro buffer ⟨rest, rfl⟩
    simp [detectMimeType, jpegSig, sigMatches]
  · rintro buffer ⟨rest, rfl⟩
    simp [detectMimeType, jpegSig, pngSig, sigMatches]
  · rintro buffer ⟨rest, rfl⟩
    simp [detectMimeType, jpegSig, pngSig, gifSig, sigMatches]
  · rintro buffer ⟨rest, rfl⟩
    simp [detectMimeType, jpegSig, pngSig, gifSig, webpSig, sigMatches]
  · intro buffer h1 h2 h3 h4
    have e1 : sigMatches buffer jpegSig = false := by
      cases hb : sigMatches buffer jpegSig
      · rfl
      · exact absurd ((sigMatches_iff _ _).mp hb) h1
    have e2 : sigMatches buffer pngSig = false := by
      cases hb : sigMatches buffer pngSig
      · rfl
      · exact absurd ((sigMatches_iff _ _).mp hb) h2
    have e3 : sigMatches buffer gifSig = false := by
      cases hb : sigMatches buffer gifSig
      · rfl
      · exact absurd ((sigMatches_iff _ _).mp hb) h3
    have e4 : sigMatches buffer webpSig = false := by
      cases hb : sigMatches buffer webpSig
      · rfl
      · exact absurd ((sigMatches_iff _ _).mp hb) h4
    simp [detectMimeType, e1, e2, e3, e4]

/-- Witness for C8 at concrete buffers, one per signature plus the
default case. -/
theorem detectMimeType_classification_witness :
    detectMimeType [0xFF, 0xD8, 0xFF, 0] = str ("image/jpeg") ∧
    detectMimeType [0x89, 0x50, 0x4E, 0x47, 0] = str ("image/png") ∧
    detectMimeType [0x47, 0x49, 0x46, 0x38, 0] = str ("image/gif") ∧
    detectMimeType [0x52, 0x49, 0x46, 0x46, 0] = str ("image/webp") ∧
    detectMimeType [0] = str ("image/jpeg") :=
  ⟨detectMimeType_classification.1 _ ⟨[0], by decide⟩,
   detectMimeType_classification.2.1 _ ⟨[0], by decide⟩,
   detectMimeType_classification.2.2.1 _ ⟨[0], by decide⟩,
   detectMimeType_classification.2.2.2.1 _ ⟨[0], by decide⟩,
   detectMimeType_classification.2.2.2.2 [0]
     (by rw [← sigMatches_iff]; decide) (by rw [← sigMatches_iff]; decide)
     (by rw [← sigMatches_iff]; decide) (by rw [← sigMatches_iff]; decide)⟩

/-- C9: a link ending in a slash followed by digits yields the numeric
value of those digits, and a link not ending in a digit yields 0. -/
theorem extractPostNumber_spec :
    (∀ pre ds : JStr, ds ≠ [] → (∀ c ∈ ds, isDigitChar c = true) →
      extractPostNumber (pre ++ '/' :: ds) = digitsToNat ds) ∧
    (∀ link : JStr, (∀ (h : link ≠ []), isDigitChar (link.getLast h) = false) →
      extractPostNumber link = 0) := by
  constructor
  · intro pre ds hne hdig
    have hslash : isDigitChar '/' = false := by decide
    have hrev : (pre ++ '/' :: ds).reverse = ds.reverse ++ '/' :: pre.reverse := by
      rw [List.reverse_append, List.reverse_cons, List.append_assoc, List.singleton_append]
    have hds : ds.reverse.takeWhile isDigitChar = ds.reverse :=
      List.takeWhile_eq_self_iff.mpr (fun x hx => hdig x (List.mem_reverse.mp hx))
    have htake : (ds.reverse ++ '/' :: pre.reverse).takeWhile isDigitChar = ds.reverse := by
      rw [List.takeWhile_append, hds, if_pos rfl, List.takeWhile_cons_of_neg (by simp [hslash])]
      simp
    have hdropnil : ds.reverse.dropWhile isDigitChar = [] :=
      List.dropWhile_eq_nil_iff.mpr (fun x hx => hdig x (List.mem_reverse.mp hx))
    have hdrop : (ds.reverse ++ '/' :: pre.reverse).dropWhile isDigitChar = '/' :: pre.reverse := by
      rw [List.dropWhile_append, hdropnil]
      simp [List.dropWhile_cons, hslash]
    have hrne : ds.reverse.isEmpty = false := by
      rw [List.isEmpty_eq_false]
      simpa [List.reverse_eq_nil_iff] using hne
    unfold extractPostNumber
    rw [hrev, htake, hdrop, hrne]
    simp [List.reverse_reverse]
  · intro link h
    cases hl : link.reverse with
    | nil =>
      have : link = [] := List.reverse_eq_nil_iff.mp hl
      subst this
      rfl
    | cons c rest =>
      have hcne : link ≠ [] := by
        intro h0
        rw [h0] at hl
        simp at hl
      have hrne : link.reverse ≠ [] := by rw [hl]; simp
      have hlast : link.getLast hcne = c := by
        have h2 := List.head_reverse hrne
        rw [← h2]
        simp [hl]
      have hdig : isDigitChar c = false := by rw [← hlast]; exact h hcne
      unfold extractPostNumber
      rw [hl, List.takeWhile_cons_of_neg (by simp [hdig])]
      simp

/-- Witness for C9 at a concrete link with suffix 12345 and a concrete
link ending in a letter. -/
theorem extractPostNumber_spec_witness :
    extractPostNumber (str ("https://t.me/chan") ++ '/' :: str ("12345")) = 12345 ∧
    extractPostNumber (str ("https://t.me/abc")) = 0 :=
  ⟨(extractPostNumber_spec.1 (str ("https://t.me/chan")) (str ("12345"))
      (by decide) (by decide)).trans (by decide),
   extractPostNumber_spec.2 (str ("https://t.me/abc")) (by decide)⟩

/-- Ampersand escaping leaves a string without ampersands unchanged. -/
theorem escapeAmp_eq_self {s : JStr} (h : ∀ c ∈ s, c ≠ '&') : escapeAmp s = s := by
  induction s with
  | nil => rfl
  | cons c rest ih =>
    have hc : c ≠ '&' := h c (List.mem_cons_self c rest)
    simp only [escapeAmp, if_neg hc]
    rw [ih (fun x hx => h x (List.mem_cons_of_mem _ hx))]

/-- A single-character replace leaves a string without that character
unchanged. -/
theorem replaceChar_eq_self {c : Char} {r : JStr} {s : JStr} (h : ∀ x ∈ s, x ≠ c) :
    replaceChar c r s = s := by
  induction s with
  | nil => rfl
  | cons x rest ih =>
    have hx : x ≠ c := h x (List.mem_cons_self x rest)
    simp only [replaceChar, if_neg hx, List.singleton_append]
    rw [ih (fun y hy => h y (List.mem_cons_of_mem _ hy))]

/-- Trimming yields a sublist of the input. -/
theorem jsTrim_sublist (s : JStr) : (jsTrim s).Sublist s :=
  ((List.rdropWhile_prefix _ _).sublist).trans (List.dropWhile_sublist _)

/-- Trimming is idempotent. -/
theorem jsTrim_idem (s : JStr) : jsTrim (jsTrim s) = jsTrim s := by
  unfold jsTrim
  have hid : List.dropWhile isJsWhitespace (s.dropWhile isJsWhitespace)
      = s.dropWhile isJsWhitespace := List.dropWhile_idempotent _ _
  have h1 : List.dropWhile isJsWhitespace
        (List.rdropWhile isJsWhitespace (s.dropWhile isJsWhitespace))
      = List.rdropWhile isJsWhitespace (s.dropWhile isJsWhitespace) := by
    rcases hp : List.rdropWhile isJsWhitespace (s.dropWhile isJsWhitespace) with _ | ⟨a, w⟩
    · simp
    · obtain ⟨t, ht⟩ := List.rdropWhile_prefix isJsWhitespace (s.dropWhile isJsWhitespace)
      rw [hp] at ht
      rw [← ht, List.cons_append] at hid
      have hpa : isJsWhitespace a = false := by
        cases hb : isJsWhitespace a
        · rfl
        · exfalso
          rw [List.dropWhile_cons, if_pos hb] at hid
          have hlen := congrArg List.length hid
          have hle := (List.dropWhile_sublist (l := w ++ t) isJsWhitespace).length_le
          rw [List.length_cons] at hlen
          omega
      exact List.dropWhile_cons_of_neg (by simp [hpa])
  rw [h1, List.rdropWhile_idempotent]

/-- A sublist of a string free of raw specials is free of raw
specials. -/
theorem noRawSpecials_sublist {s t : JStr} (hsub : t.Sublist s) (h : noRawSpecials s) :
    noRawSpecials t :=
  fun c hc => h c (List.Sublist.mem hc hsub)

/-- On a string free of raw specials, the sanitizer body reduces to the
invalid-character filter followed by trimming. -/
theorem sanitizeCore_of_noRawSpecials {s : JStr} (h : noRawSpecials s) :
    sanitizeCore s = jsTrim (s.filter isValidXmlChar) := by
  unfold sanitizeCore
  rw [escapeAmp_eq_self (fun c hc => (h c hc).1),
    replaceChar_eq_self (fun c hc => (h c hc).2.1),
    replaceChar_eq_self (fun c hc => (h c hc).2.2.1),
    replaceChar_eq_self (fun c hc => (h c hc).2.2.2.1),
    replaceChar_eq_self (fun c hc => (h c hc).2.2.2.2)]

/-- C4 (amended): the sanitizer is idempotent on strings free of the
five raw characters; the amp entity itself is left unchanged; and more
generally an ampersand beginning a recognized entity tail is never
re-escaped.  The universally quantified reading of the original claim
fails only on inputs that already contain the double-escaped sequence,
see the counterexample. -/
theorem sanitizeXmlText_idem_and_entities :
    (∀ s : JStr, noRawSpecials s →
        sanitizeXmlText (some (sanitizeXmlText (some s))) = sanitizeXmlText (some s)) ∧
    sanitizeXmlText (some (str ("&amp;"))) = str ("&amp;") ∧
    (∀ rest : JStr, isEntityTail rest = true →
        escapeAmp ('&' :: rest) = '&' :: escapeAmp rest) := by
  refine ⟨?_, by decide, ?_⟩
  · intro s h
    by_cases hs : s = []
    · subst hs; rfl
    · have h1 : sanitizeXmlText (some s) = jsTrim (s.filter isValidXmlChar) := by
        simp only [sanitizeXmlText]
        rw [if_neg hs, sanitizeCore_of_noRawSpecials h]
      by_cases ht : jsTrim (s.filter isValidXmlChar) = []
      · rw [h1, ht]; rfl
      · have hsub : (jsTrim (s.filter isValidXmlChar)).Sublist s :=
          (jsTrim_sublist _).trans (List.filter_sublist s)
        have hns : noRawSpecials (jsTrim (s.filter isValidXmlChar)) :=
          noRawSpecials_sublist hsub h
        have hval : (jsTrim (s.filter isValidXmlChar)).filter isValidXmlChar
            = jsTrim (s.filter isValidXmlChar) := by
          rw [List.filter_eq_self]
          intro a ha
          have hmem : a ∈ s.filter isValidXmlChar :=
            List.Sublist.mem ha (jsTrim_sublist _)
          exact (List.mem_filter.mp hmem).2
        rw [h1]
        simp only [sanitizeXmlText]
        rw [if_neg ht, sanitizeCore_of_noRawSpecials hns, hval]
        exact jsTrim_idem _
  · intro rest h
    simp [escapeAmp, h]

/-- Witness for C4 at a concrete padded string and a concrete entity
tail. -/
theorem sanitizeXmlText_idem_witness :
    noRawSpecials (str (" ab  c ")) ∧
    sanitizeXmlText (some (sanitizeXmlText (some (str (" ab  c ")))))
      = sanitizeXmlText (some (str (" ab  c "))) ∧
    isEntityTail (str ("amp;x")) = true ∧
    escapeAmp ('&' :: str ("amp;x")) = '&' :: escapeAmp (str ("amp;x")) :=
  ⟨by decide, sanitizeXmlText_idem_and_entities.1 _ (by decide), by decide,
   sanitizeXmlText_idem_and_entities.2.2 _ (by decide)⟩

/-- C4 counterexample: the input string consisting of the double-escaped
sequence contains the amp entity, and sanitizing passes it through
unchanged, so the output does contain the double-escaped sequence,
refuting the claim that sanitizing a string containing the amp entity
never produces it. -/
theorem sanitize_double_escape_cex :
    containsSub (str ("&amp;")) (str ("&amp;amp;")) = true ∧
    containsSub (str ("&amp;amp;")) (sanitizeXmlText (some (str ("&amp;amp;")))) = true :=
  ⟨by decide, by decide⟩

/-- One unfolding of the retry loop: success returns at once. -/
theorem retryLoop_step_ok {ε α : Type} {op : Nat → Except ε α} {retries delay attempt : Nat}
    {a : α} (h : attempt < retries) (ha : op attempt = .ok a) :
    retryLoop op retries delay attempt = ⟨.ok a, 1, []⟩ := by
  unfold retryLoop
  rw [dif_pos h, ha]

/-- One unfolding of the retry loop: the last allowed attempt rethrows
without waiting. -/
theorem retryLoop_step_last {ε α : Type} {op : Nat → Except ε α} {retries delay attempt : Nat}
    {e : ε} (h : attempt < retries) (he : op attempt = .error e) (hl : attempt = retries - 1) :
    retryLoop op retries delay attempt = ⟨.err e, 1, []⟩ := by
  unfold retryLoop
  rw [dif_pos h, he]
  simp [hl]

/-- One unfolding of the retry loop: a non-final failure waits the
backoff delay for this attempt index and continues. -/
theorem retryLoop_step_rec {ε α : Type} {op : Nat → Except ε α} {retries delay attempt : Nat}
    {e : ε} (h : attempt < retries) (he : op attempt = .error e) (hne : attempt ≠ retries - 1) :
    retryLoop op retries delay attempt =
      ⟨(retryLoop op retries delay (attempt + 1)).outcome,
       (retryLoop op retries delay (attempt + 1)).attempts + 1,
       delay * 2 ^ attempt :: (retryLoop op retries delay (attempt + 1)).waits⟩ := by
  conv_lhs => rw [retryLoop]
  rw [dif_pos h, he]
  simp [hne]

/-- Full characterization of a retry run whose first success is at
attempt k: the result is that success, exactly k + 1 - attempt
invocations happen, and the waits are the exponential backoff schedule
for the failed attempts. -/
theorem retryLoop_ok_char {ε α : Type} (op : Nat → Except ε α) (retries delay : Nat)
    (es : Nat → ε) :
    ∀ d attempt k a, attempt ≤ k → k < retries → k - attempt = d →
      (∀ i, attempt ≤ i → i < k → op i = .error (es i)) → op k = .ok a →
      retryLoop op retries delay attempt =
        ⟨.ok a, k + 1 - attempt, (List.range' attempt (k - attempt)).map (fun i => delay * 2 ^ i)⟩ := by
  intro d
  induction d with
  | zero =>
    intro attempt k a hak hkr hd _herr hok
    have hek : attempt = k := by omega
    subst hek
    rw [retryLoop_step_ok hkr hok]
    have h1 : attempt + 1 - attempt = 1 := by omega
    have h2 : attempt - attempt = 0 := by omega
    rw [h1, h2]
    rfl
  | succ d ih =>
    intro attempt k a hak hkr hd herr hok
    have hlt : attempt < k := by omega
    rw [retryLoop_step_rec (by omega) (herr attempt le_rfl hlt) (by omega)]
    rw [ih (attempt + 1) k a (by omega) hkr (by omega)
      (fun i h1 h2 => herr i (by omega) h2) hok]
    have h1 : k + 1 - (attempt + 1) + 1 = k + 1 - attempt := by omega
    have h2 : k - attempt = (k - (attempt + 1)) + 1 := by omega
    rw [h1, h2, List.range'_succ]
    rfl

/-- Full characterization of a retry run in which every attempt fails:
the last error is propagated, every allowed attempt is made, and the
waits are the backoff schedule for all attempts but the last. -/
theorem retryLoop_err_char {ε α : Type} (op : Nat → Except ε α) (retries delay : Nat)
    (es : Nat → ε) :
    ∀ d attempt, attempt < retries → retries - 1 - attempt = d →
      (∀ i, attempt ≤ i → i < retries → op i = .error (es i)) →
      retryLoop op retries delay attempt =
        ⟨.err (es (retries - 1)), retries - attempt,
         (List.range' attempt (retries - 1 - attempt)).map (fun i => delay * 2 ^ i)⟩ := by
  intro d
  induction d with
  | zero =>
    intro attempt har hd herr
    have hel : attempt = retries - 1 := by omega
    rw [retryLoop_step_last har (herr attempt le_rfl har) hel]
    have h1 : retries - attempt = 1 := by omega
    rw [h1, hd, ← hel]
    rfl
  | succ d ih =>
    intro attempt har hd herr
    rw [retryLoop_step_rec har (herr attempt le_rfl har) (by omega)]
    rw [ih (attempt + 1) (by omega) (by omega) (fun i h1 h2 => herr i (by omega) h2)]
    have h1 : retries - (attempt + 1) + 1 = retries - attempt := by omega
    have h2 : retries - 1 - attempt = (retries - 1 - (attempt + 1)) + 1 := by omega
    rw [h1, h2, List.range'_succ]
    rfl

/-- C7: the retry wrapper shared by the upstream fetch and the media
download returns the result of the first successful attempt without
further attempts; before each retry it waits delay times 2 to the
attempt index; and when the final attempt fails it propagates that last
error.  The oracle es gives the error of each failing attempt. -/
theorem safeTelegramRss_retry_contract {ε α : Type} (op : Nat → Except ε α)
    (retries delay : Nat) (es : Nat → ε) :
    (∀ a, 0 < retries → op 0 = .ok a →
        safeTelegramRss op retries delay = ⟨.ok a, 1, []⟩) ∧
    (∀ k a, k < retries → (∀ i, i < k → op i = .error (es i)) → op k = .ok a →
        safeTelegramRss op retries delay =
          ⟨.ok a, k + 1, (List.range k).map (fun i => delay * 2 ^ i)⟩) ∧
    (0 < retries → (∀ i, i < retries → op i = .error (es i)) →
        safeTelegramRss op retries delay =
          ⟨.err (es (retries - 1)), retries,
           (List.range (retries - 1)).map (fun i => delay * 2 ^ i)⟩) := by
  refine ⟨?_, ?_, ?_⟩
  · intro a hr hok
    exact retryLoop_step_ok hr hok
  · intro k a hkr herr hok
    have h := retryLoop_ok_char op retries delay es k 0 k a (Nat.zero_le k) hkr
      (by omega) (fun i _ h2 => herr i h2) hok
    rw [List.range_eq_range']
    simpa using h
  · intro hr herr
    have h := retryLoop_err_char op retries delay es (retries - 1) 0 hr (by omega)
      (fun i _ h2 => herr i h2)
    rw [List.range_eq_range']
    simpa using h

/-- Witness for C7: the source budget of 3 attempts and 2000ms base
delay, once with success on the third attempt and once with all
attempts failing. -/
theorem safeTelegramRss_retry_contract_witness :
    safeTelegramRss opThird 3 2000 = ⟨.ok 42, 3, [2000, 4000]⟩ ∧
    safeTelegramRss opFails 3 2000 = ⟨.err 2, 3, [2000, 4000]⟩ :=
  ⟨((safeTelegramRss_retry_contract opThird 3 2000 (fun i => i)).2.1 2 42
      (by decide) (by decide) (by decide)).trans (by decide),
   ((safeTelegramRss_retry_contract opFails 3 2000 (fun i => i)).2.2
      (by decide) (by decide)).trans (by decide)⟩

/-- Setting a directory and reading it back yields the new contents. -/
theorem dirContents_diskSet (disk : Disk) (k : DirKey) (c : List (JStr × ByteBuf)) :
    dirContents (diskSet disk k c) k = c := by
  induction disk with
  | nil => simp [diskSet, dirContents]
  | cons e rest ih =>
    by_cases he : e.1 = k
    · simp [diskSet, he, dirContents]
    · simp [diskSet, he, dirContents, ih]

/-- C3: with an empty post directory and a network that succeeds on the
first attempt, the first downloadImage call for a (channel, post) key
performs exactly one fetch, and a second call with the same url
performs no fetch, leaves the disk unchanged, and returns metadata
identical to the first call. -/
theorem downloadImage_second_call_cached {ε : Type} (net : JStr → Nat → Except ε ByteBuf)
    (imageDir : JStr) (disk : Disk) (url channel : JStr) (postNumber : Nat) (bytes : ByteBuf)
    (hdisk : dirContents disk (channel, postNumber) = [])
    (hnet : net url 0 = .ok bytes) :
    (downloadImage net imageDir disk url channel postNumber 3 2000).2.2 = 1 ∧
    (downloadImage net imageDir
        (downloadImage net imageDir disk url channel postNumber 3 2000).2.1
        url channel postNumber 3 2000).2.2 = 0 ∧
    (downloadImage net imageDir
        (downloadImage net imageDir disk url channel postNumber 3 2000).2.1
        url channel postNumber 3 2000).1 =
      (downloadImage net imageDir disk url channel postNumber 3 2000).1 ∧
    (downloadImage net imageDir
        (downloadImage net imageDir disk url channel postNumber 3 2000).2.1
        url channel postNumber 3 2000).2.1 =
      (downloadImage net imageDir disk url channel postNumber 3 2000).2.1 := by
  have hrun : retryLoop (net url) 3 2000 0 = ⟨.ok bytes, 1, []⟩ :=
    retryLoop_step_ok (by omega) hnet
  have hfirst : downloadImage net imageDir disk url channel postNumber 3 2000 =
      (.ok { path := joinPath [imageDir, channel, natToJStr postNumber,
               str ("image") ++ getExtFromMime (detectMimeType bytes)],
             filename := str ("image") ++ getExtFromMime (detectMimeType bytes),
             size := bytes.length, mimeType := detectMimeType bytes,
             relativePath := relativePathOf channel postNumber
               (str ("image") ++ getExtFromMime (detectMimeType bytes)) },
       diskWrite disk (channel, postNumber)
         (str ("image") ++ getExtFromMime (detectMimeType bytes)) bytes, 1) := by
    simp only [downloadImage, hdisk, hrun]
  have hcontents : dirContents
      (diskWrite disk (channel, postNumber)
        (str ("image") ++ getExtFromMime (detectMimeType bytes)) bytes)
      (channel, postNumber) =
      [(str ("image") ++ getExtFromMime (detectMimeType bytes), bytes)] := by
    unfold diskWrite
    rw [hdisk]
    simp [dirContents_diskSet]
  have hsecond : downloadImage net imageDir
      (diskWrite disk (channel, postNumber)
        (str ("image") ++ getExtFromMime (detectMimeType bytes)) bytes)
      url channel postNumber 3 2000 =
      (.ok { path := joinPath [imageDir, channel, natToJStr postNumber,
               str ("image") ++ getExtFromMime (detectMimeType bytes)],
             filename := str ("image") ++ getExtFromMime (detectMimeType bytes),
             size := bytes.length, mimeType := detectMimeType bytes,
             relativePath := relativePathOf channel postNumber
               (str ("image") ++ getExtFromMime (detectMimeType bytes)) },
       diskWrite disk (channel, postNumber)
         (str ("image") ++ getExtFromMime (detectMimeType bytes)) bytes, 0) := by
    simp only [downloadImage, hcontents]
  rw [hfirst, hsecond]
  exact ⟨rfl, rfl, rfl, rfl⟩

/-- Witness for C3 at a concrete channel, post number, url, network and
the empty disk. -/
theorem downloadImage_second_call_cached_witness :
    dirContents [] (str ("chan"), 5) = [] ∧
    netJpeg (str ("u")) 0 = .ok [0xFF, 0xD8, 0xFF, 9] ∧
    ((downloadImage netJpeg (str ("imgdir")) [] (str ("u")) (str ("chan")) 5 3 2000).2.2 = 1 ∧
     (downloadImage netJpeg (str ("imgdir"))
         (downloadImage netJpeg (str ("imgdir")) [] (str ("u")) (str ("chan")) 5 3 2000).2.1
         (str ("u")) (str ("chan")) 5 3 2000).2.2 = 0 ∧
     (downloadImage netJpeg (str ("imgdir"))
         (downloadImage netJpeg (str ("imgdir")) [] (str ("u")) (str ("chan")) 5 3 2000).2.1
         (str ("u")) (str ("chan")) 5 3 2000).1 =
       (downloadImage netJpeg (str ("imgdir")) [] (str ("u")) (str ("chan")) 5 3 2000).1 ∧
     (downloadImage netJpeg (str ("imgdir"))
         (downloadImage netJpeg (str ("imgdir")) [] (str ("u")) (str ("chan")) 5 3 2000).2.1
         (str ("u")) (str ("chan")) 5 3 2000).2.1 =
       (downloadImage netJpeg (str ("imgdir")) [] (str ("u")) (str ("chan")) 5 3 2000).2.1) :=
  ⟨rfl, rfl,
   downloadImage_second_call_cached netJpeg (str ("imgdir")) [] (str ("u")) (str ("chan")) 5
     [0xFF, 0xD8, 0xFF, 9] rfl rfl⟩

/-- The sort comparator relation is transitive. -/
theorem itemLe_trans : ∀ a b c : OutItemPre,
    itemLe a b = true → itemLe b c = true → itemLe a c = true := by
  intro a b c h1 h2
  simp only [itemLe, decide_eq_true_eq] at *
  omega

/-- The sort comparator relation is total. -/
theorem itemLe_total : ∀ a b : OutItemPre, (itemLe a b || itemLe b a) = true := by
  intro a b
  simp only [itemLe, Bool.or_eq_true, decide_eq_true_eq]
  omega

/-- Every mapped item carries the ordering key extracted from its own
link. -/
theorem postNumber_of_mem {ctx : NormCtx} {items : List RawItem} :
    ∀ it ∈ items.map (processItem ctx), it.postNumber = extractPostNumber it.link := by
  intro it hit
  obtain ⟨raw, _, rfl⟩ := List.mem_map.mp hit
  rfl

/-- C2: normalization preserves the entry count, orders entries by
descending ordering key, and is stable: for every key value, the
entries carrying it appear in the output in exactly the order the item
mapping produced them. -/
theorem processItems_count_sorted_stable (ctx : NormCtx) (items : List RawItem) :
    (processItems ctx items).length = items.length ∧
    List.Pairwise (fun a b => extractPostNumber b.link ≤ extractPostNumber a.link)
      (processItems ctx items) ∧
    ∀ k : Nat, (processItems ctx items).filter (fun e => extractPostNumber e.link == k) =
      ((items.map (processItem ctx)).map stripPostNumber).filter
        (fun e => extractPostNumber e.link == k) := by
  refine ⟨?_, ?_, ?_⟩
  · simp [processItems, List.length_mergeSort]
  · have hp : List.Pairwise (fun a b => itemLe a b = true)
        ((items.map (processItem ctx)).mergeSort itemLe) :=
      List.sorted_mergeSort itemLe_trans itemLe_total _
    have hp2 : List.Pairwise
        (fun a b : OutItemPre => extractPostNumber b.link ≤ extractPostNumber a.link)
        ((items.map (processItem ctx)).mergeSort itemLe) := by
      refine hp.imp_of_mem ?_
      intro a b ha hb hle
      have ha2 := postNumber_of_mem a (List.mem_mergeSort.mp ha)
      have hb2 := postNumber_of_mem b (List.mem_mergeSort.mp hb)
      simp only [itemLe, decide_eq_true_eq] at hle
      rw [← ha2, ← hb2]
      exact hle
    exact List.pairwise_map.mpr hp2
  · intro k
    show ((( items.map (processItem ctx)).mergeSort itemLe).map stripPostNumber).filter _ = _
    rw [List.filter_map, List.filter_map]
    have key : (((items.map (processItem ctx)).mergeSort itemLe).filter
          ((fun e : OutItem => extractPostNumber e.link == k) ∘ stripPostNumber)) =
        ((items.map (processItem ctx)).filter
          ((fun e : OutItem => extractPostNumber e.link == k) ∘ stripPostNumber)) := by
      have hpw : List.Pairwise (fun a b => itemLe a b = true)
          ((items.map (processItem ctx)).filter
            ((fun e : OutItem => extractPostNumber e.link == k) ∘ stripPostNumber)) := by
        refine List.pairwise_of_forall_mem_list ?_
        intro a hfa b hfb
        have hma := List.mem_filter.mp hfa
        have hmb := List.mem_filter.mp hfb
        have ha2 := postNumber_of_mem a hma.1
        have hb2 := postNumber_of_mem b hmb.1
        have hka : extractPostNumber a.link = k := by
          have := hma.2
          simpa using this
        have hkb : extractPostNumber b.link = k := by
          have := hmb.2
          simpa using this
        simp only [itemLe, decide_eq_true_eq]
        omega
      have hsubl := List.sublist_mergeSort itemLe_trans itemLe_total hpw
        (List.filter_sublist (items.map (processItem ctx)))
      have hsub2 := List.Sublist.filter
        ((fun e : OutItem => extractPostNumber e.link == k) ∘ stripPostNumber) hsubl
      rw [show (((items.map (processItem ctx)).filter
            ((fun e : OutItem => extractPostNumber e.link == k) ∘ stripPostNumber)).filter
            ((fun e : OutItem => extractPostNumber e.link == k) ∘ stripPostNumber)) =
          ((items.map (processItem ctx)).filter
            ((fun e : OutItem => extractPostNumber e.link == k) ∘ stripPostNumber)) from by
        rw [List.filter_eq_self]
        intro a ha
        exact (List.mem_filter.mp ha).2] at hsub2
      have hlen : ((((items.map (processItem ctx)).mergeSort itemLe).filter
            ((fun e : OutItem => extractPostNumber e.link == k) ∘ stripPostNumber))).length =
          (((items.map (processItem ctx)).filter
            ((fun e : OutItem => extractPostNumber e.link == k) ∘ stripPostNumber))).length :=
        ((List.mergeSort_perm (items.map (processItem ctx)) itemLe).filter _).length_eq
      exact (List.Sublist.eq_of_length hsub2 hlen.symm).symm
    rw [key]

/-- C6: a post whose media download fails still appears in the output,
with its enclosure pointing at the original remote url, the generic
JPEG type, and length 0. -/
theorem mediaFailure_entry_preserved (ctx : NormCtx) (items : List RawItem) (item : RawItem)
    (url : JStr) (hmem : item ∈ items) (himg : item.image = some url) (hne : url ≠ [])
    (hdl : ctx.download url (extractPostNumber item.link) = .error ()) :
    ∃ out ∈ processItems ctx items, out.link = item.link ∧
      out.enclosure = some { url := url, type := str ("image/jpeg"), length := str ("0") } := by
  refine ⟨stripPostNumber (processItem ctx item), ?_, rfl, ?_⟩
  · have h1 : processItem ctx item ∈ items.map (processItem ctx) :=
      List.mem_map_of_mem _ hmem
    have h2 : processItem ctx item ∈ (items.map (processItem ctx)).mergeSort itemLe :=
      List.mem_mergeSort.mpr h1
    exact List.mem_map_of_mem _ h2
  · show (processItem ctx item).enclosure = _
    simp [processItem, himg, hne, hdl]

/-- Witness for C6 at a singleton item list and the always failing
download oracle. -/
theorem mediaFailure_entry_preserved_witness :
    mediaItem ∈ [mediaItem] ∧
    mediaItem.image = some (str ("https://cdn.example/img")) ∧
    str ("https://cdn.example/img") ≠ ([] : JStr) ∧
    ctxBadDate.download (str ("https://cdn.example/img")) (extractPostNumber mediaItem.link)
      = .error () ∧
    ∃ out ∈ processItems ctxBadDate [mediaItem], out.link = mediaItem.link ∧
      out.enclosure = some { url := str ("https://cdn.example/img"),
                             type := str ("image/jpeg"), length := str ("0") } :=
  ⟨by decide, rfl, by decide, rfl,
   mediaFailure_entry_preserved ctxBadDate [mediaItem] mediaItem
     (str ("https://cdn.example/img")) (by decide) rfl (by decide) rfl⟩

/-- C1: evaluation of the pipeline on a post whose publish date string
does not parse.  The inlined new Date(s).toUTCString() at src/rss8.cjs
line 226 yields the literal string Invalid Date for that entry, not the
build timestamp, while the unused helper parseDate (lines 50-53) would
have substituted the current time as the claim states. -/
theorem invalidDate_divergence :
    (processItem ctxBadDate badDateItem).pubDate = str ("Invalid Date") ∧
    (processItem ctxBadDate badDateItem).pubDate ≠ ctxBadDate.latestPubDate ∧
    parseDate dparseNone 12345 (str ("not-a-date")) = 12345 :=
  ⟨by decide, by decide, rfl⟩

/-- C5: a refresh is atomic with respect to the freshness cache: on any
fetch or parse failure the error is propagated and the cache is
returned untouched, and on success the entry for the channel is
replaced wholesale with the serialization of the fully built document
and the current timestamp. -/
theorem processRssFeed_cache_atomic {ε : Type} (ctx : NormCtx) (build : OutDoc → JStr)
    (fetch : Except ε JStr) (parseXml : JStr → Except ε RawChannel)
    (channel : JStr) (now : Int) (cache : Cache) :
    (∃ e, (processRssFeed ctx build fetch parseXml channel now cache).1 = .error e ∧
          (processRssFeed ctx build fetch parseXml channel now cache).2 = cache) ∨
    (∃ doc, (processRssFeed ctx build fetch parseXml channel now cache).1
          = .ok (build (normalizeChannel ctx channel doc)) ∧
        (processRssFeed ctx build fetch parseXml channel now cache).2
          = cacheSet cache channel (build (normalizeChannel ctx channel doc), now)) := by
  unfold processRssFeed
  cases fetch with
  | error e => exact .inl ⟨e, rfl, rfl⟩
  | ok raw =>
    cases hp : parseXml (presanitizeAmp raw) with
    | error e =>
      left
      refine ⟨e, ?_, ?_⟩ <;> simp [hp]
    | ok doc =>
      right
      refine ⟨doc, ?_, ?_⟩ <;> simp [hp]

end Rss8
